import Mathlib

/-!
Verification of the two scripts in `scripts/` of the repository:
`process_support.py` (the batch report generator, turning the support ledger
CSV into per-locale JSON and Markdown artifacts) and `translate_support.py`
(the ad-hoc translation utility, translating a JSON array of strings given on
the command line).  The translation backend (`deep_translator.GoogleTranslator`)
is modelled as an oracle; a raised exception is an `Option` that is `none`.
-/

/-- A CSV row as produced by `csv.DictReader`: an association list from header
names to cell values, later bindings overwriting earlier ones. -/
abbrev Row := List (String × String)

/-- Lookup in a Python `dict` built from an association list read left to
right (later bindings overwrite earlier ones), as used by `dict.get`: the
scan runs over the reversed list so that the last binding for a key wins. -/
def dget (m : List (String × String)) (k : String) : Option String :=
  m.reverse.lookup k

/-- Python `row.get(key, '')` on a CSV row. -/
def rowGet (r : Row) (k : String) : String :=
  (dget r k).getD ""

/-- Python `str.isspace()` on one character: exactly the characters removed
by `str.strip()` - tab through carriage return `0x09`-`0x0d` (including
vertical tab and form feed), the file/group/record/unit separators
`0x1c`-`0x1f`, space, next line `0x85`, no-break space `0xa0`, ogham space
mark `0x1680`, the Unicode spaces `0x2000`-`0x200a`, the line and paragraph
separators `0x2028` and `0x2029`, narrow no-break space `0x202f`, medium
mathematical space `0x205f`, and ideographic space `0x3000`. -/
def pyIsSpace (c : Char) : Bool :=
  (0x09 ≤ c.toNat && c.toNat ≤ 0x0d) || (0x1c ≤ c.toNat && c.toNat ≤ 0x1f) ||
  c.toNat == 0x20 || c.toNat == 0x85 || c.toNat == 0xa0 || c.toNat == 0x1680 ||
  (0x2000 ≤ c.toNat && c.toNat ≤ 0x200a) || c.toNat == 0x2028 ||
  c.toNat == 0x2029 || c.toNat == 0x202f || c.toNat == 0x205f ||
  c.toNat == 0x3000

/-- Python `str.strip()`: drop whitespace characters (`pyIsSpace`) from both
ends.  Written directly on the character list so that it evaluates by
`decide`. -/
def pyStrip (s : String) : String :=
  ⟨((s.data.dropWhile pyIsSpace).reverse.dropWhile pyIsSpace).reverse⟩

/-- One hexadecimal digit, lower case, as printed by `json.dumps`. -/
def hexDigit (n : Nat) : Char :=
  match n % 16 with
  | 0 => '0' | 1 => '1' | 2 => '2' | 3 => '3' | 4 => '4' | 5 => '5' | 6 => '6' | 7 => '7'
  | 8 => '8' | 9 => '9' | 10 => 'a' | 11 => 'b' | 12 => 'c' | 13 => 'd' | 14 => 'e'
  | _ => 'f'

/-- Four hexadecimal digits of a code unit below `0x10000`. -/
def hex4 (n : Nat) : String :=
  ⟨[hexDigit (n / 4096), hexDigit (n / 256), hexDigit (n / 16), hexDigit n]⟩

/-- The `\uXXXX` escape of `json.dumps(..., ensure_ascii=True)`; a code point
beyond the basic plane becomes a UTF-16 surrogate pair. -/
def escU (n : Nat) : String :=
  if n ≤ 0xFFFF then "\\u" ++ hex4 n
  else "\\u" ++ hex4 (0xD800 + (n - 0x10000) / 0x400) ++
       "\\u" ++ hex4 (0xDC00 + (n - 0x10000) % 0x400)

/-- How `json.dumps` with `ensure_ascii=True` renders one character of a
string: everything outside the printable ASCII range `0x20`–`0x7e` is
escaped, as are the quote and the backslash. -/
def escapeChar (c : Char) : String :=
  if c = '"' then "\\\""
  else if c = '\\' then "\\\\"
  else if c = '\x08' then "\\b"
  else if c = '\x0c' then "\\f"
  else if c = '\n' then "\\n"
  else if c = '\r' then "\\r"
  else if c = '\t' then "\\t"
  else if c.toNat < 0x20 ∨ 0x7e < c.toNat then escU c.toNat
  else ⟨[c]⟩

/-- Concatenation of a list of strings. -/
def strConcat : List String → String
  | [] => ""
  | s :: rest => s ++ strConcat rest

/-- `json.dumps` of one string (`ensure_ascii=True`). -/
def jsonString (s : String) : String :=
  "\"" ++ strConcat (s.data.map escapeChar) ++ "\""

/-- The item separator `", "` of `json.dumps` between array elements. -/
def commaSep : List String → String
  | [] => ""
  | [s] => s
  | s :: rest => s ++ ", " ++ commaSep rest

/-- `json.dumps` of a list of strings (`ensure_ascii=True`): the single line
each utility prints to standard output. -/
def jsonArr (xs : List String) : String :=
  "[" ++ commaSep (xs.map jsonString) ++ "]"

/-- A string consists of ASCII characters only. -/
def asciiStr (s : String) : Bool := s.data.all (fun c => c.toNat < 128)

lemma asciiStr_append (a b : String) :
    asciiStr (a ++ b) = (asciiStr a && asciiStr b) := by
  simp [asciiStr, String.data_append, List.all_append]

lemma hexDigit_ascii (n : Nat) : (hexDigit n).toNat < 128 := by
  unfold hexDigit
  split <;> decide

lemma hex4_ascii (n : Nat) : asciiStr (hex4 n) = true := by
  simp [asciiStr, hex4, List.all_cons, hexDigit_ascii]

lemma escU_ascii (n : Nat) : asciiStr (escU n) = true := by
  unfold escU
  split_ifs <;> simp [asciiStr_append, hex4_ascii] <;> decide

lemma escapeChar_ascii (c : Char) : asciiStr (escapeChar c) = true := by
  unfold escapeChar
  split_ifs with h1 h2 h3 h4 h5 h6 h7 h8
  · decide
  · decide
  · decide
  · decide
  · decide
  · decide
  · decide
  · exact escU_ascii _
  · push_neg at h8
    simp [asciiStr]
    omega

lemma strConcat_ascii (l : List String) (h : ∀ s ∈ l, asciiStr s = true) :
    asciiStr (strConcat l) = true := by
  induction l with
  | nil => decide
  | cons s rest ih =>
    rw [strConcat, asciiStr_append, h s (by simp), ih (fun t ht => h t (by simp [ht]))]
    rfl

lemma jsonString_ascii (s : String) : asciiStr (jsonString s) = true := by
  rw [jsonString, asciiStr_append, asciiStr_append]
  rw [strConcat_ascii]
  · decide
  · intro t ht
    simp only [List.mem_map] at ht
    obtain ⟨c, _, rfl⟩ := ht
    exact escapeChar_ascii c

lemma commaSep_ascii (l : List String) (h : ∀ s ∈ l, asciiStr s = true) :
    asciiStr (commaSep l) = true := by
  induction l with
  | nil => decide
  | cons s rest ih =>
    match rest with
    | [] => exact h s (by simp)
    | t :: more =>
      rw [show commaSep (s :: t :: more) = s ++ ", " ++ commaSep (t :: more) from rfl]
      rw [asciiStr_append, asciiStr_append, h s (by simp),
        ih (fun u hu => h u (by simp [List.mem_cons] at hu ⊢; tauto))]
      decide

lemma jsonArr_ascii (xs : List String) : asciiStr (jsonArr xs) = true := by
  rw [jsonArr, asciiStr_append, asciiStr_append]
  rw [commaSep_ascii]
  · decide
  · intro t ht
    simp only [List.mem_map] at ht
    obtain ⟨s, _, rfl⟩ := ht
    exact jsonString_ascii s

/-! ## Embedding of `translate_support.py` -/

/-- The translation backend of the ad-hoc utility, a
`GoogleTranslator(source='auto', target=target)` oracle for one fixed target
locale.  `ctorOk = false` models the constructor raising (for instance on an
unsupported locale code); `batch` models `translate_batch` and `single` models
`translate` on one string; a `none` result is a raised exception.  A `some`
result may be the empty string, which Python treats as falsy. -/
structure TBackend where
  ctorOk : Bool
  batch : List String → Option (List String)
  single : String → Option String

/-- The observable outcome of one run: the lines printed to standard output
and to the error stream, in print order. -/
structure TResult where
  stdout : List String
  stderr : List String
deriving DecidableEq

/-- Python `enumerate` starting at index `k`. -/
def pyEnum (k : Nat) : List String → List (Nat × String)
  | [] => []
  | t :: ts => (k, t) :: pyEnum (k + 1) ts

/-- The preprocessing test of `translate_support.main`: an entry is sent for
translation exactly when its stripped form (`clean_text`) is nonempty and is
not the placeholder `"-"`. -/
def needsTranslation (t : String) : Bool :=
  pyStrip t != "" && pyStrip t != "-"

/-- The `mapping_indices`/`to_translate` pairs built by the preprocessing
loop: position and original text of every entry sent to the backend, in
input order. -/
def toTranslate (texts : List String) : List (Nat × String) :=
  (pyEnum 0 texts).filter (fun p => needsTranslation p.2)

/-- The list of strings handed to the backend (`to_translate`). -/
def backendPayload (texts : List String) : List String :=
  (toTranslate texts).map Prod.snd

/-- In-order execution of `results[idx] = value` assignments on the mutable
`results` list. -/
def applyUpdates (base : List String) : List (Nat × String) → List String
  | [] => base
  | (i, v) :: rest => applyUpdates (base.set i v) rest

/-- The assignments of the successful-batch loop:
`results[idx] = translated if translated else texts[idx]`, with `zip`
truncating to the shorter of `mapping_indices` and `translated_list`. -/
def batchUpdates (texts : List String) (translated : List String) :
    List (Nat × String) :=
  (((toTranslate texts).map Prod.fst).zip translated).map
    (fun p => (p.1, if p.2 != "" then p.2 else texts.getD p.1 ""))

/-- The assignments of the sequential fallback loop: a raising `translate`
leaves the entry untouched (`except: pass`); a falsy result falls back to the
original text. -/
def seqUpdates (tb : TBackend) (texts : List String) : List (Nat × String) :=
  (toTranslate texts).filterMap
    (fun p => (tb.single p.2).map (fun res => (p.1, if res != "" then res else p.2)))

/-- The `results` list as printed by `translate_support.main` when the
translator was constructed: originals, overwritten by the batch translation
when `translate_batch` succeeds, otherwise by the sequential fallback. -/
def translateResults (tb : TBackend) (texts : List String) : List String :=
  if (toTranslate texts).isEmpty then texts
  else match tb.batch (backendPayload texts) with
    | some translated => applyUpdates texts (batchUpdates texts translated)
    | none => applyUpdates texts (seqUpdates tb texts)

/-- `translate_support.main`.  `nargs` is the number of command-line arguments
after the program name (`len(sys.argv) - 1`); `parsed` is the outcome of
resolving the first argument (file contents or inline JSON) as a list of
strings, `none` when that parsing raised.  The locale argument is fixed
inside `tb`.  The run always terminates normally (exit status zero). -/
def translate_support_main (tb : TBackend) (nargs : Nat)
    (parsed : Option (List String)) : TResult :=
  if nargs < 2 then ⟨[jsonArr []], []⟩
  else match parsed with
  | none => ⟨[jsonArr []], ["Input Error"]⟩
  | some texts =>
    if texts.isEmpty then ⟨[jsonArr []], []⟩
    else if !tb.ctorOk then ⟨[jsonArr texts], ["Execution Error"]⟩
    else
      ⟨[jsonArr (translateResults tb texts)],
       match (toTranslate texts).isEmpty, tb.batch (backendPayload texts) with
       | false, none => ["Batch failed, switching to sequential."]
       | _, _ => []⟩

/-- The rank of position `i`: how many earlier entries are sent for
translation; the position of entry `i` inside `to_translate`. -/
def rankOf (texts : List String) (i : Nat) : Nat :=
  ((texts.take i).filter needsTranslation).length

/-- Positional specification of one entry of the printed `results` list, used
to state that output ordering matches input ordering: position `i` of the
output is derived from position `i` of the input alone (pass-through, the
batch translation at its rank, or the sequential retry of that entry). -/
def outputAt (tb : TBackend) (texts : List String) (i : Nat) : String :=
  if !tb.ctorOk then texts.getD i ""
  else if !needsTranslation (texts.getD i "") then texts.getD i ""
  else match tb.batch (backendPayload texts) with
    | some translated =>
        match translated[rankOf texts i]? with
        | some v => if v != "" then v else texts.getD i ""
        | none => texts.getD i ""
    | none =>
        match tb.single (texts.getD i "") with
        | some res => if res != "" then res else texts.getD i ""
        | none => texts.getD i ""

/-! ## Embedding of `process_support.py` -/

/-- The key-name map `KEY_MAP` (CN header name to English JSON key), in its
insertion order. -/
def KEY_MAP : List (String × String) :=
  [("收款时间", "time"), ("收款项", "item"), ("金额", "amount"), ("单位", "unit"),
   ("留言", "message"), ("昵称", "name"), ("备注", "note")]

/-- The locale codes of `LANG_CONFIG`, in the iteration order of the loop of
`main`. -/
def LANGS : List String := ["en", "zh-CN", "zh-TW", "ja", "ko"]

/-- The locales for which a Markdown artifact is additionally generated. -/
def MD_LANGS : List String := ["zh-CN", "zh-TW", "en"]

/-- The three translatable content fields. -/
def CONTENT_KEYS : List String := ["收款项", "留言", "备注"]

/-- The identity translation map `{text: text for text in texts}`. -/
def idMap (texts : List String) : List (String × String) :=
  texts.map (fun t => (t, t))

/-- The filter building `to_translate` inside `translate_texts`:
`t and t.strip() and t.strip() != '-'`. -/
def ttFilter (t : String) : Bool :=
  t != "" && pyStrip t != "" && pyStrip t != "-"

/-- `translate_texts(texts, target_lang)` with the `translate_batch` call
modelled by the oracle `batch` (`none` = the call raises).  Returns the
translation map together with a flag recording whether the fallback warning
was printed to the error stream. -/
def translate_texts (batch : List String → Option (List String))
    (texts : List String) (target_lang : String) :
    List (String × String) × Bool :=
  if texts.isEmpty || target_lang == "zh-CN" then (idMap texts, false)
  else
    let to_translate := texts.filter ttFilter
    if to_translate.isEmpty then (idMap texts, false)
    else match batch to_translate with
      | some translated_list =>
          (texts.map (fun t =>
            (t, (dget (to_translate.zip translated_list) t).getD t)), false)
      | none => (idMap texts, true)

/-- One output record of `generate_json`: the seven fields of a row, keys
renamed to English in `KEY_MAP` order, content fields translated unless falsy
or the placeholder, message and note defaulting to `"-"` when falsy. -/
def generate_json_row (tmap : List (String × String)) (row : Row) :
    List (String × String) :=
  KEY_MAP.map (fun p =>
    let v0 := rowGet row p.1
    let v1 := if CONTENT_KEYS.contains p.1 && v0 != "" && v0 != "-"
              then (dget tmap v0).getD v0 else v0
    (p.2, if v1 != "" then v1
          else if p.1 == "留言" || p.1 == "备注" then "-" else v1))

/-- `generate_json`: the array written to `Support.<lang>.json`, one object
per CSV row, in input order. -/
def generate_json (data : List Row) (tmap : List (String × String)) :
    List (List (String × String)) :=
  data.map (generate_json_row tmap)

/-- One data row of the Markdown table of `generate_md`: the six cells time,
item, amount (unit and amount, emphasized), name, message, note.  The title,
header row, separator row and the timestamp footer are presentational and
not modelled. -/
def generate_md_row (tmap : List (String × String)) (row : Row) : List String :=
  [rowGet row "收款时间",
   (dget tmap (rowGet row "收款项")).getD (rowGet row "收款项"),
   "**" ++ rowGet row "单位" ++ rowGet row "金额" ++ "**",
   rowGet row "昵称",
   (if rowGet row "留言" != "" && rowGet row "留言" != "-"
    then (dget tmap (rowGet row "留言")).getD (rowGet row "留言") else "-"),
   (if rowGet row "备注" != "" && rowGet row "备注" != "-"
    then (dget tmap (rowGet row "备注")).getD (rowGet row "备注") else "-")]

/-- The data rows of the Markdown artifact `Support.<lang>.md`, one per CSV
row, in input order. -/
def generate_md (data : List Row) (tmap : List (String × String)) :
    List (List String) :=
  data.map (generate_md_row tmap)

/-- The values a row contributes to `unique_texts`: its content-field values,
excluding falsy ones and the placeholder (`if row.get(k) and row[k] != '-'`). -/
def rowTexts (row : Row) : List String :=
  (CONTENT_KEYS.map (rowGet row)).filter (fun v => v != "" && v != "-")

/-- `texts_list = list(unique_texts)`: the distinct content-field values over
all rows.  Python iterates a `set`, whose order is unspecified; the model
keeps the last occurrences, and nothing downstream depends on the order. -/
def collectTexts (data : List Row) : List String :=
  (data.map rowTexts).flatten.dedup

/-- The outcome of resolving the input CSV at the start of
`process_support.main`: the file is missing, reading or parsing it raised, or
it yielded a list of rows. -/
inductive CsvInput where
  | missing
  | unreadable
  | ok (rows : List Row)

/-- The observable outcome of one run of the batch generator: the JSON and
Markdown artifacts written (identified by locale code), the warning lines on
the error stream, and the error messages of the two early-return paths. -/
structure PResult where
  jsonOutputs : List (String × List (List (String × String)))
  mdOutputs : List (String × List (List String))
  warnings : List String
  errors : List String
deriving DecidableEq

/-- The translation map computed for one locale inside the loop of `main`. -/
def tmapFor (batch : String → List String → Option (List String))
    (data : List Row) (lang : String) : List (String × String) :=
  (translate_texts (batch lang) (collectTexts data) lang).1

/-- Whether the fallback warning was printed for one locale. -/
def warnedFor (batch : String → List String → Option (List String))
    (data : List Row) (lang : String) : Bool :=
  (translate_texts (batch lang) (collectTexts data) lang).2

/-- `process_support.main`.  `batch lang` is the oracle for the
`translate_batch` call of the `GoogleTranslator` targeting `lang`.  On a
missing or unreadable CSV the run reports an error and writes nothing; else
the per-locale loop writes one JSON artifact per locale and one Markdown
artifact for the locales of `MD_LANGS`, in loop order. -/
def process_support_main (batch : String → List String → Option (List String))
    (input : CsvInput) : PResult :=
  match input with
  | .missing => ⟨[], [], [], ["Error: Support.csv not found."]⟩
  | .unreadable => ⟨[], [], [], ["Error reading CSV"]⟩
  | .ok data =>
    { jsonOutputs := LANGS.map (fun lang =>
        (lang, generate_json data (tmapFor batch data lang)))
      mdOutputs := (LANGS.filter (fun lang => MD_LANGS.contains lang)).map
        (fun lang => (lang, generate_md data (tmapFor batch data lang)))
      warnings := LANGS.filterMap (fun lang =>
        if warnedFor batch data lang
        then some ("Translation to " ++ lang ++ " failed: fallback to original.")
        else none)
      errors := [] }

/-! ## Structural lemmas about the update loops -/

lemma mem_of_getElemOpt {α : Type} {l : List α} {i : Nat} {a : α}
    (h : l[i]? = some a) : a ∈ l := by
  obtain ⟨hlt, rfl⟩ := List.getElem?_eq_some_iff.mp h
  exact List.getElem_mem hlt

lemma length_applyUpdates (ups : List (Nat × String)) (base : List String) :
    (applyUpdates base ups).length = base.length := by
  induction ups generalizing base with
  | nil => rfl
  | cons p rest ih =>
    obtain ⟨i, v⟩ := p
    rw [applyUpdates, ih, List.length_set]

lemma applyUpdates_not_mem (ups : List (Nat × String)) (base : List String)
    (i : Nat) (h : i ∉ ups.map Prod.fst) :
    (applyUpdates base ups)[i]? = base[i]? := by
  induction ups generalizing base with
  | nil => rfl
  | cons p rest ih =>
    obtain ⟨j, v⟩ := p
    simp only [List.map_cons, List.mem_cons] at h
    push_neg at h
    rw [applyUpdates, ih _ h.2, List.getElem?_set_ne (Ne.symm h.1)]

lemma applyUpdates_mem (ups : List (Nat × String)) (base : List String)
    (i : Nat) (v : String) (hnd : (ups.map Prod.fst).Nodup)
    (hmem : (i, v) ∈ ups) (hi : i < base.length) :
    (applyUpdates base ups)[i]? = some v := by
  induction ups generalizing base with
  | nil => cases hmem
  | cons p rest ih =>
    obtain ⟨j, w⟩ := p
    simp only [List.map_cons, List.nodup_cons] at hnd
    rcases List.mem_cons.mp hmem with heq | hr
    · injection heq with h1 h2
      subst h1
      subst h2
      rw [applyUpdates, applyUpdates_not_mem _ _ _ hnd.1,
        List.getElem?_set_self hi]
    · rw [applyUpdates]
      exact ih _ hnd.2 hr (by rw [List.length_set]; exact hi)

lemma pyEnum_map_fst (l : List String) (k : Nat) :
    (pyEnum k l).map Prod.fst = List.range' k l.length := by
  induction l generalizing k with
  | nil => rfl
  | cons x xs ih =>
    simp only [pyEnum, List.map_cons, List.length_cons, List.range'_succ]
    rw [ih]

lemma mem_pyEnum (l : List String) (k : Nat) (p : Nat × String)
    (h : p ∈ pyEnum k l) : k ≤ p.1 ∧ l[p.1 - k]? = some p.2 := by
  induction l generalizing k with
  | nil => cases h
  | cons x xs ih =>
    rcases List.mem_cons.mp h with heq | hr
    · subst heq; simp
    · have h2 := ih (k + 1) hr
      refine ⟨by omega, ?_⟩
      have h1 : p.1 - k = (p.1 - (k + 1)) + 1 := by omega
      rw [h1, List.getElem?_cons_succ]
      exact h2.2

lemma mem_toTranslate {texts : List String} {p : Nat × String}
    (h : p ∈ toTranslate texts) :
    texts[p.1]? = some p.2 ∧ needsTranslation p.2 = true := by
  rw [toTranslate, List.mem_filter] at h
  have h2 := mem_pyEnum _ _ _ h.1
  refine ⟨?_, h.2⟩
  simpa using h2.2

lemma toTranslate_fst_nodup (texts : List String) :
    ((toTranslate texts).map Prod.fst).Nodup := by
  have hsub : ((toTranslate texts).map Prod.fst).Sublist
      ((pyEnum 0 texts).map Prod.fst) :=
    (List.filter_sublist _).map _
  rw [pyEnum_map_fst] at hsub
  exact hsub.nodup (List.nodup_range' 0 texts.length)

lemma toTranslate_aux_rank (texts : List String) (k i : Nat)
    (hi : i < texts.length)
    (ht : needsTranslation (texts.getD i "") = true) :
    ((pyEnum k texts).filter (fun p => needsTranslation p.2))[rankOf texts i]? =
      some (k + i, texts.getD i "") := by
  induction texts generalizing k i with
  | nil => simp at hi
  | cons x xs ih =>
    cases i with
    | zero =>
      rw [List.getD_cons_zero] at ht ⊢
      simp only [rankOf, List.take_zero, List.filter_nil, List.length_nil]
      simp only [pyEnum, List.filter_cons, ht, if_true]
      simp
    | succ n =>
      rw [List.getD_cons_succ] at ht ⊢
      have hn : n < xs.length := by simpa using hi
      have hrank : rankOf (x :: xs) (n + 1) =
          (if needsTranslation x then 1 else 0) + rankOf xs n := by
        simp only [rankOf, List.take_succ_cons, List.filter_cons]
        split <;> simp [Nat.add_comm]
      cases hx : needsTranslation x with
      | false =>
        rw [hrank, hx, if_neg (by simp)]
        simp only [Nat.zero_add, pyEnum, List.filter_cons, hx]
        rw [if_neg (by simp)]
        have := ih (k + 1) n hn ht
        rw [this]
        congr 2
        omega
      | true =>
        rw [hrank, hx, if_pos rfl]
        simp only [pyEnum, List.filter_cons, hx, if_true]
        rw [Nat.add_comm 1 (rankOf xs n), List.getElem?_cons_succ]
        have := ih (k + 1) n hn ht
        rw [this]
        congr 2
        omega

lemma toTranslate_rank (texts : List String) (i : Nat)
    (hi : i < texts.length)
    (ht : needsTranslation (texts.getD i "") = true) :
    (toTranslate texts)[rankOf texts i]? = some (i, texts.getD i "") := by
  have := toTranslate_aux_rank texts 0 i hi ht
  simpa [toTranslate] using this

lemma toTranslate_fst_eq {texts : List String} {p : Nat × String} {i : Nat}
    (hp : p ∈ toTranslate texts) (hfi : p.1 = i) :
    p.2 = texts.getD i "" := by
  have h := (mem_toTranslate hp).1
  rw [hfi] at h
  rw [List.getD_eq_getElem?_getD, h]
  rfl

lemma fst_getElem_toTranslate {texts : List String} {r i : Nat}
    (h : ((toTranslate texts).map Prod.fst)[r]? = some i) :
    ∃ p ∈ toTranslate texts, p.1 = i := by
  rw [List.getElem?_map] at h
  cases hp : (toTranslate texts)[r]? with
  | none => rw [hp] at h; cases h
  | some p =>
    rw [hp] at h
    injection h with h1
    exact ⟨p, mem_of_getElemOpt hp, h1⟩

lemma zip_map_fst_sublist {α β : Type} (l₁ : List α) (l₂ : List β) :
    ((l₁.zip l₂).map Prod.fst).Sublist l₁ := by
  induction l₁ generalizing l₂ with
  | nil => simp
  | cons a as ih =>
    cases l₂ with
    | nil => simp
    | cons b bs =>
      rw [List.zip_cons_cons, List.map_cons]
      exact (ih bs).cons₂ a

lemma batchUpdates_map_fst (texts translated : List String) :
    (batchUpdates texts translated).map Prod.fst =
      (((toTranslate texts).map Prod.fst).zip translated).map Prod.fst := by
  rw [batchUpdates, List.map_map]
  rfl

lemma batchUpdates_fst_nodup (texts translated : List String) :
    ((batchUpdates texts translated).map Prod.fst).Nodup := by
  rw [batchUpdates_map_fst]
  exact (zip_map_fst_sublist _ _).nodup (toTranslate_fst_nodup texts)

lemma mem_fst_batchUpdates_rank {texts translated : List String} {i : Nat}
    (h : i ∈ (batchUpdates texts translated).map Prod.fst) :
    ∃ (r : Nat) (v : String), ((toTranslate texts).map Prod.fst)[r]? = some i ∧
      translated[r]? = some v := by
  rw [batchUpdates_map_fst] at h
  obtain ⟨⟨j, v⟩, hz, hj⟩ := List.mem_map.mp h
  cases hj
  obtain ⟨r, hr⟩ := List.getElem?_of_mem hz
  have h12 := List.getElem?_zip_eq_some.mp hr
  exact ⟨r, v, h12.1, h12.2⟩

lemma batchUpdates_getElem (texts translated : List String) (i r : Nat)
    (v : String)
    (hA : ((toTranslate texts).map Prod.fst)[r]? = some i)
    (hv : translated[r]? = some v) :
    (batchUpdates texts translated)[r]? =
      some (i, if v != "" then v else texts.getD i "") := by
  rw [batchUpdates, List.getElem?_map]
  have hz : (((toTranslate texts).map Prod.fst).zip translated)[r]? =
      some (i, v) :=
    List.getElem?_zip_eq_some.mpr ⟨hA, hv⟩
  rw [hz]
  rfl

lemma map_fst_filterMap_sublist (g : Nat × String → Option (Nat × String))
    (hg : ∀ p q, g p = some q → q.1 = p.1) (l : List (Nat × String)) :
    ((l.filterMap g).map Prod.fst).Sublist (l.map Prod.fst) := by
  induction l with
  | nil => simp
  | cons p rest ih =>
    rw [List.filterMap_cons, List.map_cons]
    cases hq : g p with
    | none => exact ih.trans (List.sublist_cons_self _ _)
    | some q =>
      rw [List.map_cons, hg p q hq]
      exact ih.cons₂ _

lemma seqUpdates_fst_nodup (tb : TBackend) (texts : List String) :
    ((seqUpdates tb texts).map Prod.fst).Nodup := by
  have hsub := map_fst_filterMap_sublist
    (fun p => (tb.single p.2).map (fun res => (p.1, if res != "" then res else p.2)))
    (fun p q hpq => by
      have hpq2 : ((tb.single p.2).map
          (fun res => (p.1, if res != "" then res else p.2))) = some q := hpq
      cases hs : tb.single p.2 with
      | none => rw [hs] at hpq2; cases hpq2
      | some res =>
        rw [hs] at hpq2
        injection hpq2 with h1
        rw [← h1])
    (toTranslate texts)
  exact hsub.nodup (toTranslate_fst_nodup texts)

lemma seqUpdates_mem (tb : TBackend) (texts : List String) (p : Nat × String)
    (res : String) (hp : p ∈ toTranslate texts)
    (hs : tb.single p.2 = some res) :
    (p.1, if res != "" then res else p.2) ∈ seqUpdates tb texts := by
  rw [seqUpdates, List.mem_filterMap]
  exact ⟨p, hp, by rw [hs]; rfl⟩

lemma mem_fst_seqUpdates {tb : TBackend} {texts : List String} {i : Nat}
    (h : i ∈ (seqUpdates tb texts).map Prod.fst) :
    ∃ p ∈ toTranslate texts, p.1 = i ∧ tb.single p.2 ≠ none := by
  obtain ⟨q, hq, hqf⟩ := List.mem_map.mp h
  obtain ⟨p, hp, hgp⟩ := List.mem_filterMap.mp hq
  cases hs : tb.single p.2 with
  | none => rw [hs] at hgp; cases hgp
  | some res =>
    rw [hs] at hgp
    injection hgp with hq2
    refine ⟨p, hp, ?_, by rw [hs]; exact Option.some_ne_none res⟩
    rw [← hqf, ← hq2]

lemma length_translateResults (tb : TBackend) (texts : List String) :
    (translateResults tb texts).length = texts.length := by
  rw [translateResults]
  split
  · rfl
  · split
    · exact length_applyUpdates _ _
    · exact length_applyUpdates _ _

/-- Positional characterization of the `results` list of
`translate_support.main`: entry `i` of the output is exactly `outputAt` of
entry `i` of the input. -/
theorem translateResults_getElem (tb : TBackend) (texts : List String)
    (i : Nat) (hi : i < texts.length) (hc : tb.ctorOk = true) :
    (translateResults tb texts)[i]? = some (outputAt tb texts i) := by
  have htex : texts[i]? = some (texts.getD i "") := by
    rw [List.getD_eq_getElem?_getD, List.getElem?_eq_getElem hi]
    rfl
  unfold translateResults outputAt
  rw [hc]
  simp only [Bool.not_true]
  rw [if_neg Bool.false_ne_true]
  cases hnt : needsTranslation (texts.getD i "") with
  | false =>
    simp only [Bool.not_false]
    conv_rhs => rw [if_pos trivial]
    have hnmem : ∀ (s : String), (i, s) ∈ toTranslate texts → False := by
      intro s hs
      have h1 := (mem_toTranslate hs).1
      have h2 := (mem_toTranslate hs).2
      rw [htex] at h1
      have hse : s = texts.getD i "" := (Option.some.inj h1).symm
      rw [hse] at h2
      rw [hnt] at h2
      cases h2
    cases hemp : (toTranslate texts).isEmpty with
    | true => exact htex
    | false =>
      rw [if_neg Bool.false_ne_true]
      cases hb : tb.batch (backendPayload texts) with
      | some translated =>
        have hni : i ∉ (batchUpdates texts translated).map Prod.fst := by
          intro hmem
          obtain ⟨r, v, hA, hv⟩ := mem_fst_batchUpdates_rank hmem
          obtain ⟨p, hp, hpf⟩ := fst_getElem_toTranslate hA
          exact hnmem p.2 (by rw [← hpf, Prod.mk.eta]; exact hp)
        change (applyUpdates texts (batchUpdates texts translated))[i]? = _
        rw [applyUpdates_not_mem _ _ _ hni]
        exact htex
      | none =>
        have hni : i ∉ (seqUpdates tb texts).map Prod.fst := by
          intro hmem
          obtain ⟨p, hp, hpf, _⟩ := mem_fst_seqUpdates hmem
          exact hnmem p.2 (by rw [← hpf, Prod.mk.eta]; exact hp)
        change (applyUpdates texts (seqUpdates tb texts))[i]? = _
        rw [applyUpdates_not_mem _ _ _ hni]
        exact htex
  | true =>
    simp only [Bool.not_true]
    rw [if_neg Bool.false_ne_true]
    have hmemT : (i, texts.getD i "") ∈ toTranslate texts :=
      mem_of_getElemOpt (toTranslate_rank texts i hi hnt)
    have hempF : (toTranslate texts).isEmpty = false := by
      rw [List.isEmpty_eq_false]
      intro h0
      rw [h0] at hmemT
      cases hmemT
    rw [hempF, if_neg Bool.false_ne_true]
    cases hb : tb.batch (backendPayload texts) with
    | some translated =>
      have hA : ((toTranslate texts).map Prod.fst)[rankOf texts i]? = some i := by
        rw [List.getElem?_map, toTranslate_rank texts i hi hnt]
        rfl
      cases hv : translated[rankOf texts i]? with
      | some v =>
        have hbu := batchUpdates_getElem texts translated i (rankOf texts i) v hA hv
        have hmem2 := mem_of_getElemOpt hbu
        rw [applyUpdates_mem _ _ _ _ (batchUpdates_fst_nodup texts translated) hmem2 hi]
        simp only [hv]
      | none =>
        have hni : i ∉ (batchUpdates texts translated).map Prod.fst := by
          intro hmem
          obtain ⟨r, v, hA2, hv2⟩ := mem_fst_batchUpdates_rank hmem
          have hrlt : r < ((toTranslate texts).map Prod.fst).length :=
            (List.getElem?_eq_some_iff.mp hA2).1
          have hreq := List.getElem?_inj hrlt
            (toTranslate_fst_nodup texts) (hA2.trans hA.symm)
          rw [hreq, hv] at hv2
          cases hv2
        rw [applyUpdates_not_mem _ _ _ hni]
        simp only [hv]
        exact htex
    | none =>
      cases hs : tb.single (texts.getD i "") with
      | none =>
        have hni : i ∉ (seqUpdates tb texts).map Prod.fst := by
          intro hmem
          obtain ⟨p, hp, hpf, hsome⟩ := mem_fst_seqUpdates hmem
          have hp2 := toTranslate_fst_eq hp hpf
          rw [hp2, hs] at hsome
          exact hsome rfl
        rw [applyUpdates_not_mem _ _ _ hni]
        simp only [hs]
        exact htex
      | some res =>
        have hmem2 := seqUpdates_mem tb texts (i, texts.getD i "") res hmemT hs
        rw [applyUpdates_mem _ _ _ _ (seqUpdates_fst_nodup tb texts) hmem2 hi]

/-! ## Lemmas about the batch generator -/

lemma translate_texts_zhCN (batch : List String → Option (List String))
    (texts : List String) :
    translate_texts batch texts "zh-CN" = (idMap texts, false) := by
  rw [translate_texts, if_pos (by simp)]

lemma translate_texts_fst_of_fail (batch : List String → Option (List String))
    (texts : List String) (lang : String) (hb : ∀ l, batch l = none) :
    (translate_texts batch texts lang).1 = idMap texts := by
  simp only [translate_texts, hb]
  split
  · rfl
  · split
    · rfl
    · rfl

lemma translate_texts_of_call_fail (batch : List String → Option (List String))
    (texts : List String) (lang : String) (hzh : lang ≠ "zh-CN")
    (hne : texts.filter ttFilter ≠ [])
    (hfail : batch (texts.filter ttFilter) = none) :
    translate_texts batch texts lang = (idMap texts, true) := by
  have htne : texts ≠ [] := by
    intro h0
    rw [h0] at hne
    exact hne rfl
  have hcond : (texts.isEmpty || (lang == "zh-CN")) = false := by
    rw [Bool.or_eq_false_iff]
    exact ⟨List.isEmpty_eq_false.mpr htne, beq_eq_false_iff_ne.mpr hzh⟩
  have hie : (texts.filter ttFilter).isEmpty = false :=
    List.isEmpty_eq_false.mpr hne
  simp only [translate_texts, hcond, hie, Bool.false_eq_true, if_false, hfail]

lemma lookup_self_of_idPairs (l : List (String × String)) (v res : String)
    (hl : ∀ p ∈ l, p.1 = p.2) (h : l.lookup v = some res) : res = v := by
  induction l with
  | nil => cases h
  | cons p rest ih =>
    rcases p with ⟨k, w⟩
    rw [List.lookup_cons] at h
    cases hk : v == k with
    | true =>
      rw [hk] at h
      have hw : w = res := Option.some.inj h
      have hkw : k = w := hl (k, w) (by simp)
      have hvk : v = k := by
        have := (beq_iff_eq (a := v) (b := k)).mp hk
        exact this
      rw [← hw, ← hkw, hvk]
    | false =>
      rw [hk] at h
      exact ih (fun q hq => hl q (by simp [hq])) h

lemma dget_idMap_getD (xs : List String) (v : String) :
    (dget (idMap xs) v).getD v = v := by
  cases h : dget (idMap xs) v with
  | none => rfl
  | some res =>
    rw [Option.getD_some]
    rw [dget] at h
    refine lookup_self_of_idPairs _ _ _ ?_ h
    intro p hp
    rw [List.mem_reverse] at hp
    obtain ⟨t, _, rfl⟩ := List.mem_map.mp hp
    rfl

lemma generate_json_row_idMap (xs : List String) (row : Row) :
    generate_json_row (idMap xs) row =
      [("time", rowGet row "收款时间"),
       ("item", rowGet row "收款项"),
       ("amount", rowGet row "金额"),
       ("unit", rowGet row "单位"),
       ("message", if rowGet row "留言" = "" then "-" else rowGet row "留言"),
       ("name", rowGet row "昵称"),
       ("note", if rowGet row "备注" = "" then "-" else rowGet row "备注")] := by
  have hid : ∀ v : String, (dget (idMap xs) v).getD v = v := dget_idMap_getD xs
  simp only [generate_json_row, KEY_MAP, CONTENT_KEYS, List.map_cons, List.map_nil]
  simp [hid, List.cons.injEq, Prod.mk.injEq]

lemma generate_md_row_idMap (xs : List String) (row : Row) :
    generate_md_row (idMap xs) row =
      [rowGet row "收款时间",
       rowGet row "收款项",
       "**" ++ rowGet row "单位" ++ rowGet row "金额" ++ "**",
       rowGet row "昵称",
       if rowGet row "留言" = "" then "-" else rowGet row "留言",
       if rowGet row "备注" = "" then "-" else rowGet row "备注"] := by
  have hid : ∀ v : String, (dget (idMap xs) v).getD v = v := dget_idMap_getD xs
  simp only [generate_md_row]
  simp [hid, List.cons.injEq]
  constructor
  · by_cases h : rowGet row "留言" = "" <;> simp [h]
    by_cases h2 : rowGet row "留言" = "-" <;> simp [h2]
  · by_cases h : rowGet row "备注" = "" <;> simp [h]
    by_cases h2 : rowGet row "备注" = "-" <;> simp [h2]

/-! ## Helper facts about `translate_support.main` -/

lemma translate_support_main_eq (tb : TBackend) (nargs : Nat)
    (texts : List String) (h2 : 2 ≤ nargs) :
    translate_support_main tb nargs (some texts) =
      (if texts.isEmpty then ⟨[jsonArr []], []⟩
       else if !tb.ctorOk then ⟨[jsonArr texts], ["Execution Error"]⟩
       else ⟨[jsonArr (translateResults tb texts)],
         match (toTranslate texts).isEmpty, tb.batch (backendPayload texts) with
         | false, none => ["Batch failed, switching to sequential."]
         | _, _ => []⟩) := by
  rw [translate_support_main, if_neg (by omega)]

lemma translate_support_main_stdout (tb : TBackend) (nargs : Nat)
    (texts : List String) (h2 : 2 ≤ nargs) :
    ∃ results : List String,
      (translate_support_main tb nargs (some texts)).stdout = [jsonArr results] ∧
      results.length = texts.length ∧
      (∀ i : Nat, i < texts.length → results[i]? = some (outputAt tb texts i)) := by
  rw [translate_support_main_eq tb nargs texts h2]
  cases hpe : texts.isEmpty with
  | true =>
    have h0 : texts = [] := List.isEmpty_iff.mp hpe
    subst h0
    exact ⟨[], rfl, rfl, fun i hi => by cases hi⟩
  | false =>
    rw [if_neg (by simp)]
    cases hc : tb.ctorOk with
    | false =>
      rw [if_pos (by rfl)]
      refine ⟨texts, rfl, rfl, fun i hi => ?_⟩
      rw [outputAt, hc]
      rw [if_pos (by rfl)]
      rw [List.getD_eq_getElem?_getD, List.getElem?_eq_getElem hi]
      rfl
    | true =>
      rw [if_neg (by simp)]
      exact ⟨translateResults tb texts, rfl,
        length_translateResults tb texts,
        fun i hi => translateResults_getElem tb texts i hi hc⟩

lemma translateResults_of_fail (tb : TBackend) (texts : List String)
    (hb : ∀ l, tb.batch l = none) (hs : ∀ s, tb.single s = none) :
    translateResults tb texts = texts := by
  rw [translateResults]
  split
  · rfl
  · rw [hb]
    have hsq : seqUpdates tb texts = [] := by
      rw [seqUpdates, List.filterMap_eq_nil_iff]
      intro p _
      rw [hs]
      rfl
    change applyUpdates texts (seqUpdates tb texts) = texts
    rw [hsq]
    rfl

/-! ## The claims -/

/-- Claim C3: for every invocation of the ad-hoc translation utility with
parseable input, exactly one line is printed to standard output, and that
line is the serialization of a JSON array of strings of the same length as
the input with every character ASCII (all non-ASCII characters escaped),
regardless of internal failures; nothing else reaches standard output, as
diagnostics go to the error stream only. -/
theorem claim_C3 (tb : TBackend) (nargs : Nat) (texts : List String)
    (h2 : 2 ≤ nargs) :
    ∃ results : List String,
      (translate_support_main tb nargs (some texts)).stdout = [jsonArr results] ∧
      (translate_support_main tb nargs (some texts)).stdout.length = 1 ∧
      results.length = texts.length ∧
      asciiStr (jsonArr results) = true := by
  obtain ⟨results, hst, hlen, _⟩ := translate_support_main_stdout tb nargs texts h2
  exact ⟨results, hst, by rw [hst]; rfl, hlen, jsonArr_ascii results⟩

/-- Claim C3 witness at a concrete input. -/
theorem claim_C3_witness :
    ∃ results : List String,
      (translate_support_main ⟨true, fun _ => none, fun _ => none⟩ 2
        (some ["héllo", "-"])).stdout = [jsonArr results] ∧
      (translate_support_main ⟨true, fun _ => none, fun _ => none⟩ 2
        (some ["héllo", "-"])).stdout.length = 1 ∧
      results.length = (["héllo", "-"] : List String).length ∧
      asciiStr (jsonArr results) = true :=
  claim_C3 ⟨true, fun _ => none, fun _ => none⟩ 2 ["héllo", "-"] (by decide)

/-- The full output specification of the ad-hoc utility: one stdout line,
length preserved, positional derivation, pass-through entries unchanged,
pass-through entries kept out of the backend payload. -/
lemma adhoc_results_spec (tb : TBackend) (nargs : Nat) (texts : List String)
    (h2 : 2 ≤ nargs) :
    ∃ results : List String,
      (translate_support_main tb nargs (some texts)).stdout = [jsonArr results] ∧
      results.length = texts.length ∧
      (∀ i : Nat, i < texts.length → results[i]? = some (outputAt tb texts i)) ∧
      (∀ i : Nat, ∀ h : i < texts.length,
        pyStrip (texts.get ⟨i, h⟩) = "" ∨ pyStrip (texts.get ⟨i, h⟩) = "-" →
          results[i]? = some (texts.get ⟨i, h⟩)) ∧
      (∀ t ∈ backendPayload texts, pyStrip t ≠ "" ∧ pyStrip t ≠ "-") := by
  obtain ⟨results, hst, hlen, hpos⟩ :=
    translate_support_main_stdout tb nargs texts h2
  refine ⟨results, hst, hlen, hpos, ?_, ?_⟩
  · intro i h hp
    have hgd : texts.getD i "" = texts.get ⟨i, h⟩ := by
      rw [List.getD_eq_getElem?_getD, List.getElem?_eq_getElem h]
      rfl
    have hnt : needsTranslation (texts.getD i "") = false := by
      rw [hgd, needsTranslation]
      rcases hp with h1 | h1
      · have h1x : pyStrip texts[i] = "" := h1
        simp [h1x]
      · have h1x : pyStrip texts[i] = "-" := h1
        simp [h1x]
    have ho := hpos i h
    rw [outputAt] at ho
    rcases hcc : tb.ctorOk with _ | _
    · rw [hcc] at ho
      rw [if_pos (by rfl)] at ho
      rw [hgd] at ho
      exact ho
    · rw [hcc] at ho
      rw [if_neg (by simp)] at ho
      rw [hnt] at ho
      rw [if_pos (by rfl)] at ho
      rw [hgd] at ho
      exact ho
  · intro t ht
    obtain ⟨p, hp, rfl⟩ := List.mem_map.mp ht
    have hnt := (mem_toTranslate hp).2
    rw [needsTranslation, Bool.and_eq_true] at hnt
    exact ⟨bne_iff_ne.mp hnt.1, bne_iff_ne.mp hnt.2⟩

/-- Claim C4: for every input array of strings and every backend, the
output array of the ad-hoc utility has the length of the input, every
position `i` of the output is derived from position `i` of the input
(`outputAt`: pass-through, the batch translation at its rank, or the
sequential retry of that entry), pass-through entries (stripped form empty
or `"-"`) appear unchanged at their original positions, and everything
handed to the backend fails the pass-through test. -/
theorem claim_C4 (tb : TBackend) (nargs : Nat) (texts : List String)
    (h2 : 2 ≤ nargs) :
    ∃ results : List String,
      (translate_support_main tb nargs (some texts)).stdout = [jsonArr results] ∧
      results.length = texts.length ∧
      (∀ i : Nat, i < texts.length → results[i]? = some (outputAt tb texts i)) ∧
      (∀ i : Nat, ∀ h : i < texts.length,
        pyStrip (texts.get ⟨i, h⟩) = "" ∨ pyStrip (texts.get ⟨i, h⟩) = "-" →
          results[i]? = some (texts.get ⟨i, h⟩)) ∧
      (∀ t ∈ backendPayload texts, pyStrip t ≠ "" ∧ pyStrip t ≠ "-") :=
  adhoc_results_spec tb nargs texts h2

/-- Claim C4 witness at a concrete input. -/
theorem claim_C4_witness :
    ∃ results : List String,
      (translate_support_main ⟨true, fun l => some (l.map (fun s => s ++ "!")),
        fun _ => none⟩ 2 (some ["Hi", " - ", ""])).stdout = [jsonArr results] ∧
      results.length = (["Hi", " - ", ""] : List String).length ∧
      (∀ i : Nat, i < (["Hi", " - ", ""] : List String).length →
        results[i]? = some (outputAt ⟨true, fun l => some (l.map (fun s => s ++ "!")),
          fun _ => none⟩ ["Hi", " - ", ""] i)) ∧
      (∀ i : Nat, ∀ h : i < (["Hi", " - ", ""] : List String).length,
        pyStrip ((["Hi", " - ", ""] : List String).get ⟨i, h⟩) = "" ∨
        pyStrip ((["Hi", " - ", ""] : List String).get ⟨i, h⟩) = "-" →
          results[i]? = some ((["Hi", " - ", ""] : List String).get ⟨i, h⟩)) ∧
      (∀ t ∈ backendPayload ["Hi", " - ", ""],
        pyStrip t ≠ "" ∧ pyStrip t ≠ "-") :=
  claim_C4 ⟨true, fun l => some (l.map (fun s => s ++ "!")), fun _ => none⟩ 2
    ["Hi", " - ", ""] (by decide)

/-- Claim C9 (implicit): the pass-through test of the ad-hoc utility applies
to the stripped entry: an entry whose stripped value is empty or `"-"` (for
example `" - "`) is never part of what is sent to the backend and appears
unchanged at its position in the output. -/
theorem claim_C9 (tb : TBackend) (nargs : Nat) (texts : List String)
    (i : Nat) (h2 : 2 ≤ nargs) (hi : i < texts.length)
    (hp : pyStrip (texts.get ⟨i, hi⟩) = "" ∨ pyStrip (texts.get ⟨i, hi⟩) = "-") :
    texts.get ⟨i, hi⟩ ∉ backendPayload texts ∧
    ∃ results : List String,
      (translate_support_main tb nargs (some texts)).stdout = [jsonArr results] ∧
      results[i]? = some (texts.get ⟨i, hi⟩) := by
  obtain ⟨results, hst, _, _, hpass, hsent⟩ := adhoc_results_spec tb nargs texts h2
  refine ⟨?_, results, hst, hpass i hi hp⟩
  intro hmem
  have := hsent _ hmem
  rcases hp with h1 | h1
  · exact this.1 h1
  · exact this.2 h1

/-- Claim C9 witness at the concrete entry `" - "`. -/
theorem claim_C9_witness :
    (" - " : String) = (["x", " - "] : List String).get ⟨1, by decide⟩ ∧
    ((["x", " - "] : List String).get ⟨1, by decide⟩ ∉
      backendPayload ["x", " - "] ∧
    ∃ results : List String,
      (translate_support_main ⟨true, fun _ => none, fun _ => none⟩ 2
        (some ["x", " - "])).stdout = [jsonArr results] ∧
      results[1]? = some ((["x", " - "] : List String).get ⟨1, by decide⟩)) :=
  ⟨by decide, claim_C9 ⟨true, fun _ => none, fun _ => none⟩ 2 ["x", " - "] 1
    (by decide) (by decide) (by decide)⟩

/-- Claim C10 (implicit): invoked with fewer than two command-line
arguments, the ad-hoc utility prints exactly the empty JSON array `"[]"` on
standard output, emits no diagnostic, and returns normally. -/
theorem claim_C10 (tb : TBackend) (nargs : Nat) (parsed : Option (List String))
    (h : nargs < 2) :
    translate_support_main tb nargs parsed = ⟨["[]"], []⟩ ∧
    jsonArr [] = "[]" := by
  constructor
  · rw [translate_support_main.eq_def, if_pos h]
    rfl
  · rfl

/-- Claim C10 witness at a concrete input. -/
theorem claim_C10_witness :
    translate_support_main ⟨true, fun _ => none, fun _ => none⟩ 1
      (some ["Hello"]) = ⟨["[]"], []⟩ ∧
    jsonArr [] = "[]" :=
  claim_C10 ⟨true, fun _ => none, fun _ => none⟩ 1 (some ["Hello"]) (by decide)

/-- Claim C5: if every call to the translation backend raises, the ad-hoc
utility prints its input array unchanged, and the batch generator still
writes a JSON artifact for every configured locale containing the
untranslated original text (the artifact generated from the identity
translation map). -/
theorem claim_C5 (tb : TBackend) (nargs : Nat) (texts : List String)
    (batch : String → List String → Option (List String)) (data : List Row)
    (h2 : 2 ≤ nargs)
    (hb : ∀ l, tb.batch l = none) (hs : ∀ s, tb.single s = none)
    (hpb : ∀ lang l, batch lang l = none) :
    (translate_support_main tb nargs (some texts)).stdout = [jsonArr texts] ∧
    (process_support_main batch (CsvInput.ok data)).jsonOutputs =
      LANGS.map (fun lang =>
        (lang, generate_json data (idMap (collectTexts data)))) := by
  constructor
  · rw [translate_support_main_eq tb nargs texts h2]
    cases hpe : texts.isEmpty with
    | true =>
      rw [if_pos rfl]
      have h0 : texts = [] := List.isEmpty_iff.mp hpe
      rw [h0]
    | false =>
      rw [if_neg (by simp)]
      cases hc : tb.ctorOk with
      | false => rw [if_pos (by rfl)]
      | true =>
        rw [if_neg (by simp)]
        rw [translateResults_of_fail tb texts hb hs]
  · simp only [process_support_main]
    apply List.map_congr_left
    intro lang _
    rw [tmapFor, translate_texts_fst_of_fail (batch lang) _ lang (hpb lang)]

/-- Claim C5 witness at a concrete input. -/
theorem claim_C5_witness :
    (translate_support_main ⟨true, fun _ => none, fun _ => none⟩ 2
      (some ["Hello", "-", ""])).stdout = [jsonArr ["Hello", "-", ""]] ∧
    (process_support_main (fun _ _ => none)
      (CsvInput.ok [[("收款项", "Coffee")]])).jsonOutputs =
      LANGS.map (fun lang =>
        (lang, generate_json [[("收款项", "Coffee")]]
          (idMap (collectTexts [[("收款项", "Coffee")]])))) :=
  claim_C5 ⟨true, fun _ => none, fun _ => none⟩ 2 ["Hello", "-", ""]
    (fun _ _ => none) [[("收款项", "Coffee")]] (by decide)
    (fun _ => rfl) (fun _ => rfl) (fun _ _ => rfl)

/-- Claim C1: for every configured locale, a failure of the backend call
made for that locale puts the fallback warning on the error stream and makes
the locale fall back to the identity translation map; the JSON artifact for
that locale is still produced, and every configured locale gets its artifact
(a failure for one locale never aborts the others). -/
theorem claim_C1 (batch : String → List String → Option (List String))
    (data : List Row) (lang : String)
    (hlang : lang ∈ LANGS) (hzh : lang ≠ "zh-CN")
    (hne : (collectTexts data).filter ttFilter ≠ [])
    (hfail : batch lang ((collectTexts data).filter ttFilter) = none) :
    ("Translation to " ++ lang ++ " failed: fallback to original.") ∈
      (process_support_main batch (CsvInput.ok data)).warnings ∧
    tmapFor batch data lang = idMap (collectTexts data) ∧
    (lang, generate_json data (idMap (collectTexts data))) ∈
      (process_support_main batch (CsvInput.ok data)).jsonOutputs ∧
    (process_support_main batch (CsvInput.ok data)).jsonOutputs.map Prod.fst =
      LANGS := by
  have ht := translate_texts_of_call_fail (batch lang) (collectTexts data) lang
    hzh hne hfail
  have htm : tmapFor batch data lang = idMap (collectTexts data) := by
    rw [tmapFor, ht]
  refine ⟨?_, htm, ?_, ?_⟩
  · simp only [process_support_main]
    rw [List.mem_filterMap]
    refine ⟨lang, hlang, ?_⟩
    rw [warnedFor, ht]
    rfl
  · simp only [process_support_main]
    rw [List.mem_map]
    exact ⟨lang, hlang, by rw [htm]⟩
  · simp only [process_support_main, List.map_map]
    conv_rhs => rw [← List.map_id LANGS]
    apply List.map_congr_left
    intro a _
    rfl

/-- Claim C1 witness at a concrete input. -/
theorem claim_C1_witness :
    ("Translation to " ++ "ja" ++ " failed: fallback to original.") ∈
      (process_support_main (fun _ _ => none)
        (CsvInput.ok [[("收款项", "Hello")]])).warnings ∧
    tmapFor (fun _ _ => none) [[("收款项", "Hello")]] "ja" =
      idMap (collectTexts [[("收款项", "Hello")]]) ∧
    ("ja", generate_json [[("收款项", "Hello")]]
        (idMap (collectTexts [[("收款项", "Hello")]]))) ∈
      (process_support_main (fun _ _ => none)
        (CsvInput.ok [[("收款项", "Hello")]])).jsonOutputs ∧
    (process_support_main (fun _ _ => none)
      (CsvInput.ok [[("收款项", "Hello")]])).jsonOutputs.map Prod.fst =
      LANGS :=
  claim_C1 (fun _ _ => none) [[("收款项", "Hello")]] "ja" (by decide)
    (by decide) (by decide) rfl

/-- Claim C2: for every ledger input and every configured locale, the run
produces exactly the configured locales as JSON artifacts (in loop order),
and the artifact of each locale is the row-by-row image of the input data:
one record per CSV row, every row exactly once, in the original order. -/
theorem claim_C2 (batch : String → List String → Option (List String))
    (data : List Row) (lang : String) (hlang : lang ∈ LANGS) :
    (process_support_main batch (CsvInput.ok data)).jsonOutputs.map Prod.fst =
      LANGS ∧
    ∃ tm : List (String × String),
      (lang, data.map (generate_json_row tm)) ∈
        (process_support_main batch (CsvInput.ok data)).jsonOutputs ∧
      (data.map (generate_json_row tm)).length = data.length := by
  refine ⟨?_, tmapFor batch data lang, ?_, List.length_map _ _⟩
  · simp only [process_support_main, List.map_map]
    conv_rhs => rw [← List.map_id LANGS]
    apply List.map_congr_left
    intro a _
    rfl
  · simp only [process_support_main]
    rw [List.mem_map]
    exact ⟨lang, hlang, rfl⟩

/-- Claim C2 witness at a concrete input. -/
theorem claim_C2_witness :
    (process_support_main (fun _ _ => none)
      (CsvInput.ok [[("留言", "hi")], [("昵称", "A")]])).jsonOutputs.map
        Prod.fst = LANGS ∧
    ∃ tm : List (String × String),
      ("en", ([[("留言", "hi")], [("昵称", "A")]] : List Row).map
          (generate_json_row tm)) ∈
        (process_support_main (fun _ _ => none)
          (CsvInput.ok [[("留言", "hi")], [("昵称", "A")]])).jsonOutputs ∧
      (([[("留言", "hi")], [("昵称", "A")]] : List Row).map
        (generate_json_row tm)).length =
        ([[("留言", "hi")], [("昵称", "A")]] : List Row).length :=
  claim_C2 (fun _ _ => none) [[("留言", "hi")], [("昵称", "A")]] "en" (by decide)

/-- Claim C7: on a missing or unparseable ledger CSV the batch generator
reports an error and aborts: no JSON or Markdown artifact is written for any
locale. -/
theorem claim_C7 (batch : String → List String → Option (List String))
    (input : CsvInput)
    (h : input = CsvInput.missing ∨ input = CsvInput.unreadable) :
    (process_support_main batch input).jsonOutputs = [] ∧
    (process_support_main batch input).mdOutputs = [] ∧
    (process_support_main batch input).errors ≠ [] := by
  rcases h with rfl | rfl <;>
    exact ⟨rfl, rfl, by simp [process_support_main]⟩

/-- Claim C7 witness at a concrete input. -/
theorem claim_C7_witness :
    (process_support_main (fun _ _ => none) CsvInput.missing).jsonOutputs =
      [] ∧
    (process_support_main (fun _ _ => none) CsvInput.missing).mdOutputs = [] ∧
    (process_support_main (fun _ _ => none) CsvInput.missing).errors ≠ [] :=
  claim_C7 (fun _ _ => none) CsvInput.missing (Or.inl rfl)

lemma generate_json_row_message_dash (tmap : List (String × String))
    (row : Row) (hval : rowGet row "留言" = "" ∨ rowGet row "留言" = "-") :
    dget (generate_json_row tmap row) "message" = some "-" := by
  rcases hval with h | h <;>
    simp [generate_json_row, KEY_MAP, CONTENT_KEYS, dget, List.lookup, h]

lemma generate_json_row_note_dash (tmap : List (String × String))
    (row : Row) (hval : rowGet row "备注" = "" ∨ rowGet row "备注" = "-") :
    dget (generate_json_row tmap row) "note" = some "-" := by
  rcases hval with h | h <;>
    simp [generate_json_row, KEY_MAP, CONTENT_KEYS, dget, List.lookup, h]

lemma generate_md_row_message_dash (tmap : List (String × String))
    (row : Row) (hval : rowGet row "留言" = "" ∨ rowGet row "留言" = "-") :
    (generate_md_row tmap row)[4]? = some "-" := by
  rcases hval with h | h <;> simp [generate_md_row, h]

lemma generate_md_row_note_dash (tmap : List (String × String))
    (row : Row) (hval : rowGet row "备注" = "" ∨ rowGet row "备注" = "-") :
    (generate_md_row tmap row)[5]? = some "-" := by
  rcases hval with h | h <;> simp [generate_md_row, h]

/-- Claim C6: for every ledger row, every configured locale and every
backend behaviour, a message or note field that is empty or `"-"` in the
input is rendered as `"-"` in the generated JSON artifact and in every
generated Markdown artifact. -/
theorem claim_C6 (batch : String → List String → Option (List String))
    (data : List Row) (i : Nat) (row : Row) (ck ek : String) (j : Nat)
    (hrow : data[i]? = some row)
    (hk : (ck = "留言" ∧ ek = "message" ∧ j = 4) ∨
          (ck = "备注" ∧ ek = "note" ∧ j = 5))
    (hval : rowGet row ck = "" ∨ rowGet row ck = "-") :
    (∀ e ∈ (process_support_main batch (CsvInput.ok data)).jsonOutputs,
      ∃ rec : List (String × String),
        e.2[i]? = some rec ∧ dget rec ek = some "-") ∧
    (∀ e ∈ (process_support_main batch (CsvInput.ok data)).mdOutputs,
      ∃ cells : List String, e.2[i]? = some cells ∧ cells[j]? = some "-") := by
  constructor
  · intro e he
    simp only [process_support_main] at he
    obtain ⟨lang, _, rfl⟩ := List.mem_map.mp he
    refine ⟨generate_json_row (tmapFor batch data lang) row, ?_, ?_⟩
    · show (data.map (generate_json_row (tmapFor batch data lang)))[i]? = _
      rw [List.getElem?_map, hrow]
      rfl
    · rcases hk with ⟨hck, hek, _⟩ | ⟨hck, hek, _⟩
      · rw [hek]
        exact generate_json_row_message_dash _ _ (hck ▸ hval)
      · rw [hek]
        exact generate_json_row_note_dash _ _ (hck ▸ hval)
  · intro e he
    simp only [process_support_main] at he
    obtain ⟨lang, _, rfl⟩ := List.mem_map.mp he
    refine ⟨generate_md_row (tmapFor batch data lang) row, ?_, ?_⟩
    · show (data.map (generate_md_row (tmapFor batch data lang)))[i]? = _
      rw [List.getElem?_map, hrow]
      rfl
    · rcases hk with ⟨hck, _, hj⟩ | ⟨hck, _, hj⟩
      · rw [hj]
        exact generate_md_row_message_dash _ _ (hck ▸ hval)
      · rw [hj]
        exact generate_md_row_note_dash _ _ (hck ▸ hval)

/-- Claim C6 witness at a concrete input: the first membership, instantiated
at the English JSON artifact and the English Markdown artifact of a one-row
ledger with an empty message field. -/
theorem claim_C6_witness :
    (∃ rec : List (String × String),
      (("en", generate_json [[("留言", "")]]
        (tmapFor (fun _ _ => none) [[("留言", "")]] "en")) :
          String × List (List (String × String))).2[0]? = some rec ∧
      dget rec "message" = some "-") ∧
    (∃ cells : List String,
      (("en", generate_md [[("留言", "")]]
        (tmapFor (fun _ _ => none) [[("留言", "")]] "en")) :
          String × List (List String)).2[0]? = some cells ∧
      cells[4]? = some "-") := by
  have h := claim_C6 (fun _ _ => none) [[("留言", "")]] 0 [("留言", "")]
    "留言" "message" 4 rfl (Or.inl ⟨rfl, rfl, rfl⟩) (Or.inl (by decide))
  exact ⟨h.1 _ (by simp [process_support_main, LANGS]),
    h.2 _ (by simp [process_support_main, LANGS, MD_LANGS])⟩

/-- Claim C8 counterexample: with the ledger's native locale `zh-CN`, a row
whose message field is empty (`""`) is rendered with message `"-"` in the
zh-CN JSON artifact, so the output text of this translatable field is not
byte-identical to the input text. -/
theorem claim_C8_counterexample :
    (process_support_main (fun _ _ => none)
      (CsvInput.ok [[("留言", "")]])).jsonOutputs.lookup "zh-CN" =
      some [[("time", ""), ("item", ""), ("amount", ""), ("unit", ""),
             ("message", "-"), ("name", ""), ("note", "-")]] ∧
    rowGet [("留言", "")] "留言" = "" ∧ ("-" : String) ≠ "" := by
  refine ⟨by rfl, by rfl, by decide⟩

/-- Claim C8 (amended): when the target locale is the ledger's native
language `zh-CN`, translation is skipped and the translation map is the
identity map on the collected texts; in the zh-CN JSON and Markdown
artifacts every translatable field is byte-identical to the input text,
except that an empty message or note input is rendered as the placeholder
`"-"`. -/
theorem claim_C8_amended (batch : String → List String → Option (List String))
    (data : List Row)
    (ej : String × List (List (String × String)))
    (em : String × List (List String))
    (hj : ej ∈ (process_support_main batch (CsvInput.ok data)).jsonOutputs)
    (hje : ej.1 = "zh-CN")
    (hm : em ∈ (process_support_main batch (CsvInput.ok data)).mdOutputs)
    (hme : em.1 = "zh-CN") :
    tmapFor batch data "zh-CN" = idMap (collectTexts data) ∧
    ej.2 = data.map (fun row =>
      [("time", rowGet row "收款时间"), ("item", rowGet row "收款项"),
       ("amount", rowGet row "金额"), ("unit", rowGet row "单位"),
       ("message", if rowGet row "留言" = "" then "-" else rowGet row "留言"),
       ("name", rowGet row "昵称"),
       ("note", if rowGet row "备注" = "" then "-" else rowGet row "备注")]) ∧
    em.2 = data.map (fun row =>
      [rowGet row "收款时间", rowGet row "收款项",
       "**" ++ rowGet row "单位" ++ rowGet row "金额" ++ "**",
       rowGet row "昵称",
       if rowGet row "留言" = "" then "-" else rowGet row "留言",
       if rowGet row "备注" = "" then "-" else rowGet row "备注"]) := by
  have htm : tmapFor batch data "zh-CN" = idMap (collectTexts data) := by
    rw [tmapFor, translate_texts_zhCN]
  refine ⟨htm, ?_, ?_⟩
  · simp only [process_support_main] at hj
    obtain ⟨lang, _, rfl⟩ := List.mem_map.mp hj
    have hlz : lang = "zh-CN" := hje
    subst hlz
    show generate_json data (tmapFor batch data "zh-CN") = _
    rw [generate_json, htm]
    apply List.map_congr_left
    intro row _
    exact generate_json_row_idMap _ row
  · simp only [process_support_main] at hm
    obtain ⟨lang, _, rfl⟩ := List.mem_map.mp hm
    have hlz : lang = "zh-CN" := hme
    subst hlz
    show generate_md data (tmapFor batch data "zh-CN") = _
    rw [generate_md, htm]
    apply List.map_congr_left
    intro row _
    exact generate_md_row_idMap _ row

/-- Claim C8 (amended) witness at a concrete one-row ledger. -/
theorem claim_C8_amended_witness :
    tmapFor (fun _ _ => none) [[("留言", "hi")]] "zh-CN" =
      idMap (collectTexts [[("留言", "hi")]]) ∧
    (("zh-CN", generate_json [[("留言", "hi")]]
        (tmapFor (fun _ _ => none) [[("留言", "hi")]] "zh-CN")) :
        String × List (List (String × String))).2 =
      ([[("留言", "hi")]] : List Row).map (fun row =>
        [("time", rowGet row "收款时间"), ("item", rowGet row "收款项"),
         ("amount", rowGet row "金额"), ("unit", rowGet row "单位"),
         ("message", if rowGet row "留言" = "" then "-" else rowGet row "留言"),
         ("name", rowGet row "昵称"),
         ("note", if rowGet row "备注" = "" then "-" else rowGet row "备注")]) ∧
    (("zh-CN", generate_md [[("留言", "hi")]]
        (tmapFor (fun _ _ => none) [[("留言", "hi")]] "zh-CN")) :
        String × List (List String)).2 =
      ([[("留言", "hi")]] : List Row).map (fun row =>
        [rowGet row "收款时间", rowGet row "收款项",
         "**" ++ rowGet row "单位" ++ rowGet row "金额" ++ "**",
         rowGet row "昵称",
         if rowGet row "留言" = "" then "-" else rowGet row "留言",
         if rowGet row "备注" = "" then "-" else rowGet row "备注"]) :=
  claim_C8_amended (fun _ _ => none) [[("留言", "hi")]] _ _
    (by decide) rfl (by decide) rfl
